import Mathlib

/-!
# Verification of the go-totp TOTP key-management library

Shallow embedding of the core of the `KEINOS/go-totp` repository
(package `totp`): secrets, options, keys, otpauth-URI parsing, PEM
persistence and time-windowed passcode validation.

Conventions of the embedding:

* Go byte slices are `List Nat` (each element a byte value `< 256`);
  Go strings are Lean `String` (treated ASCII byte-wise, which covers
  every string the claims touch); Go `uint`/`uint64` are `Nat`
  (Go's `uint` is 64 bits on all targets the module supports);
  Unix times and HOTP counters are `Int`.
* Fallible Go functions returning `(T, error)` become `Except String T`;
  `errors.Wrap(err, msg)` becomes `msg ++ ": " ++ err`.
* External collaborators (the pquerna/otp HMAC-OTP primitive, Go's
  `net/url`, `encoding/pem`, `encoding/base32`, `crypto/ecdh` and the
  BLAKE3 KDF) are not part of the repository; they are modelled from the
  spec at their documented interfaces, each marked
  `Modelled from the spec:` in its doc comment.
-/

/-! ## Decimal strings: Go strconv.ParseUint (base 10) and FormatUint -/

/-- Decimal value of an ASCII digit character, `none` otherwise. -/
def digitVal (c : Char) : Option Nat :=
  if '0' ≤ c ∧ c ≤ '9' then some (c.toNat - 48) else none

/-- Most-significant-first decimal accumulator parse; `none` on any
non-digit character. -/
def parseDecAux (acc : Nat) : List Char → Option Nat
  | [] => some acc
  | c :: rest =>
    match digitVal c with
    | some d => parseDecAux (acc * 10 + d) rest
    | none => none

/-- Go `strconv.ParseUint(s, 10, bitSize)`: succeeds exactly on a
non-empty all-digit string whose value fits in `bitSize` bits (no sign,
no underscores in base 10). -/
def goParseUint (s : String) (bitSize : Nat) : Option Nat :=
  if s.data.isEmpty then none
  else
    match parseDecAux 0 s.data with
    | some v => if v < 2 ^ bitSize then some v else none
    | none => none

/-- From `src/totp/totp.go` `StrToUint`: `strconv.ParseUint(number, 10, 32)`,
returning 0 on any error (non-numeric input or value outside 32 bits). -/
def StrToUint (number : String) : Nat :=
  match goParseUint number 32 with
  | some u => u
  | none => 0

/-- ASCII digit character of a value `< 10`. -/
def digitChar (d : Nat) : Char := Char.ofNat (48 + d)

/-- Least-significant-first decimal digits of `n`, driven by fuel so the
recursion is structural (any fuel `> n` is enough). -/
def decDigitsAux : Nat → Nat → List Nat
  | 0, _ => []
  | _ + 1, 0 => []
  | fuel + 1, n + 1 => (n + 1) % 10 :: decDigitsAux fuel ((n + 1) / 10)

/-- Go `strconv.FormatUint(n, 10)`: the decimal rendering of `n`. -/
def formatUint (n : Nat) : String :=
  if n = 0 then "0"
  else ((decDigitsAux (n + 1) n).reverse.map digitChar).asString

/-! ## ASCII case mapping (Go strings.ToUpper / ToLower on ASCII) -/

/-- Uppercase an ASCII letter, the identity elsewhere. -/
def toUpperChar (c : Char) : Char :=
  if 'a' ≤ c ∧ c ≤ 'z' then Char.ofNat (c.toNat - 32) else c

/-- Lowercase an ASCII letter, the identity elsewhere. -/
def toLowerChar (c : Char) : Char :=
  if 'A' ≤ c ∧ c ≤ 'Z' then Char.ofNat (c.toNat + 32) else c

/-- Go `strings.ToUpper` restricted to ASCII (every string of the claims
is ASCII). -/
def toUpperAscii (s : String) : String := (s.data.map toUpperChar).asString

/-- Go `strings.ToLower` restricted to ASCII. -/
def toLowerAscii (s : String) : String := (s.data.map toLowerChar).asString

/-! ## Substring containment (for error-message assertions) -/

/-- Does `l` start with `p`? -/
def startsWithList : List Char → List Char → Bool
  | _, [] => true
  | [], _ :: _ => false
  | c :: cs, p :: ps => c = p && startsWithList cs ps

/-- Does `l` contain `p` as a contiguous sublist? -/
def containsList : List Char → List Char → Bool
  | l, p =>
    if startsWithList l p then true
    else
      match l with
      | [] => false
      | _ :: rest => containsList rest p

/-- Does the string `hay` contain `needle` as a substring? -/
def containsSubstr (hay needle : String) : Bool :=
  containsList hay.data needle.data

/-! ## Decimal round-trip lemmas -/

theorem parseDecAux_append (acc : Nat) (xs ys : List Char) :
    parseDecAux acc (xs ++ ys)
      = match parseDecAux acc xs with
        | some v => parseDecAux v ys
        | none => none := by
  induction xs generalizing acc with
  | nil => simp [parseDecAux]
  | cons c rest ih =>
    simp only [List.cons_append, parseDecAux]
    cases digitVal c with
    | some d => exact ih _
    | none => rfl

theorem digitVal_digitChar (d : Nat) (h : d < 10) :
    digitVal (digitChar d) = some d := by
  interval_cases d <;> rfl

theorem parseDecAux_decDigits (fuel n acc : Nat) (h : n < fuel) :
    parseDecAux acc ((decDigitsAux fuel n).reverse.map digitChar)
      = some (acc * 10 ^ (decDigitsAux fuel n).length + n) := by
  induction fuel generalizing n acc with
  | zero => omega
  | succ f ih =>
    cases n with
    | zero => simp [decDigitsAux, parseDecAux]
    | succ m =>
      have hdiv : (m + 1) / 10 < f := by
        have h1 : (m + 1) / 10 < m + 1 := Nat.div_lt_self (by omega) (by omega)
        omega
      simp only [decDigitsAux, List.reverse_cons, List.map_append, List.map_cons,
        List.map_nil]
      rw [parseDecAux_append]
      rw [ih ((m + 1) / 10) acc hdiv]
      simp only [parseDecAux]
      rw [digitVal_digitChar _ (Nat.mod_lt _ (by omega))]
      simp only [parseDecAux, List.length_cons]
      congr 1
      have := Nat.div_add_mod (m + 1) 10
      ring_nf
      omega

theorem goParseUint_formatUint (n : Nat) (bs : Nat) (h : n < 2 ^ bs) :
    goParseUint (formatUint n) bs = some n := by
  rcases Nat.eq_zero_or_pos n with hz | hp
  · subst hz
    have hpos : 0 < 2 ^ bs := Nat.pos_pow_of_pos bs (by omega)
    simp [formatUint, goParseUint, parseDecAux, digitVal, hpos]
  · have hne : n ≠ 0 := Nat.pos_iff_ne_zero.mp hp
    have hparse := parseDecAux_decDigits (n + 1) n 0 (by omega)
    have hnonnil : decDigitsAux (n + 1) n ≠ [] := by
      cases n with
      | zero => omega
      | succ m => simp [decDigitsAux]
    unfold formatUint
    rw [if_neg hne]
    unfold goParseUint
    have hdata : (((decDigitsAux (n + 1) n).reverse.map digitChar).asString).data
        = (decDigitsAux (n + 1) n).reverse.map digitChar := rfl
    have hempty : (((decDigitsAux (n + 1) n).reverse.map digitChar).asString).data.isEmpty
        = false := by
      rw [hdata]; simp [hnonnil]
    rw [hempty]
    simp only [Bool.false_eq_true, if_false]
    rw [hdata, hparse]
    simp only [Nat.zero_mul, Nat.zero_add]
    rw [if_pos h]

theorem strToUint_formatUint (n : Nat) (h : n < 2 ^ 32) :
    StrToUint (formatUint n) = n := by
  unfold StrToUint
  rw [goParseUint_formatUint n 32 h]

/-! ## Modelled from the spec: the net/url collaborator

The repository parses otpauth URIs through Go's `net/url` (external to
the repository). The fragment modelled here is what the URI accessors
use: `url.Parse` producing Scheme, Host, decoded Path and RawQuery, and
`URL.Query().Get(key)` over the raw query (`+` as space, `%XX` escapes,
pairs with invalid escapes or `;` dropped as in Go's `ParseQuery`
error-tolerant behaviour used by `Query()`). -/

/-- Hexadecimal value of a character, `none` otherwise. -/
def hexVal (c : Char) : Option Nat :=
  if '0' ≤ c ∧ c ≤ '9' then some (c.toNat - 48)
  else if 'a' ≤ c ∧ c ≤ 'f' then some (c.toNat - 97 + 10)
  else if 'A' ≤ c ∧ c ≤ 'F' then some (c.toNat - 65 + 10)
  else none

/-- Percent-decoding. `plusAsSpace` selects query decoding (Go
`QueryUnescape`, `+` becomes a space) versus path decoding (`+` kept).
Any malformed `%` escape fails, as in Go. -/
def percentDecode (plusAsSpace : Bool) : List Char → Option (List Char)
  | [] => some []
  | '%' :: a :: b :: rest =>
    match hexVal a, hexVal b with
    | some x, some y => (percentDecode plusAsSpace rest).map (Char.ofNat (16 * x + y) :: ·)
    | _, _ => none
  | '%' :: _ => none
  | '+' :: rest =>
    (percentDecode plusAsSpace rest).map ((if plusAsSpace then ' ' else '+') :: ·)
  | c :: rest => (percentDecode plusAsSpace rest).map (c :: ·)

/-- Go `net/url.getScheme`: `some (scheme, rest)` splits a valid scheme
off (`scheme` empty when the URL has none, in which case `rest` is the
whole input); `none` is the `missing protocol scheme` error. -/
def getSchemeAux (orig : List Char) (seen : List Char) : List Char → Option (List Char × List Char)
  | [] => some ([], orig)
  | c :: rest =>
    if c.isAlpha then getSchemeAux orig (c :: seen) rest
    else if c.isDigit || c = '+' || c = '-' || c = '.' then
      if seen.isEmpty then some ([], orig) else getSchemeAux orig (c :: seen) rest
    else if c = ':' then
      if seen.isEmpty then none else some (seen.reverse, rest)
    else some ([], orig)

/-- Split a list at the first occurrence of `sep`: `(before, after)`,
with `after = []` when `sep` does not occur (Go `split(s, sep, true)`). -/
def splitFirst (sep : Char) : List Char → List Char × List Char
  | [] => ([], [])
  | c :: rest =>
    if c = sep then ([], rest)
    else
      let (b, a) := splitFirst sep rest
      (c :: b, a)

/-- The components of a parsed URL that the URI accessors read:
`Scheme`, `Host`, (percent-decoded) `Path` and `RawQuery`. -/
structure GoURL where
  scheme : String
  host : String
  path : String
  rawQuery : String
deriving DecidableEq, Repr

/-- Modelled from the spec: Go `url.Parse` on the otpauth fragment.
Fragment stripped at `#`; scheme split and lowercased; raw query split
at the first `?`; an authority after `//` up to the next `/` becomes the
host (taken verbatim); the remainder is the path, percent-decoded (a bad
escape fails the whole parse, as in Go); with a scheme but no `//` the
URL is opaque and host and path are empty. -/
def urlParse (s : String) : Option GoURL :=
  let noFrag := (splitFirst '#' s.data).1
  match getSchemeAux noFrag [] noFrag with
  | none => none
  | some (sch, rest) =>
    let (beforeQ, rawQ) := splitFirst '?' rest
    if startsWithList beforeQ ['/', '/'] then
      let afterSlashes := beforeQ.drop 2
      let host := afterSlashes.takeWhile (fun c => c ≠ '/')
      let pathRaw := afterSlashes.dropWhile (fun c => c ≠ '/')
      match percentDecode false pathRaw with
      | none => none
      | some p =>
        some ⟨toLowerAscii sch.asString, host.asString, p.asString, rawQ.asString⟩
    else if sch.isEmpty ∨ startsWithList beforeQ ['/'] then
      match percentDecode false beforeQ with
      | none => none
      | some p => some ⟨toLowerAscii sch.asString, "", p.asString, rawQ.asString⟩
    else
      -- opaque URL (scheme present, no authority, relative rest)
      some ⟨toLowerAscii sch.asString, "", "", rawQ.asString⟩

/-- Split a list on every occurrence of `sep`. -/
def splitAll (sep : Char) : List Char → List (List Char)
  | [] => [[]]
  | c :: rest =>
    let r := splitAll sep rest
    if c = sep then [] :: r
    else
      match r with
      | [] => [[c]]
      | seg :: segs => (c :: seg) :: segs

/-- Modelled from the spec: Go `URL.Query()` (`url.ParseQuery` with
errors discarded): split the raw query on `&`, drop empty segments and
segments containing `;`, split each at the first `=`, percent-decode
key and value with `+` as space, dropping the pair when either fails. -/
def parseQuery (raw : String) : List (String × String) :=
  (splitAll '&' raw.data).filterMap fun seg =>
    if seg.isEmpty then none
    else if seg.contains ';' then none
    else
      let (k, v) := if seg.contains '=' then splitFirst '=' seg else (seg, [])
      match percentDecode true k, percentDecode true v with
      | some dk, some dv => some (dk.asString, dv.asString)
      | _, _ => none

/-- Go `url.Values.Get(key)`: the first value listed for `key`, or the
empty string. -/
def queryGet (q : List (String × String)) (key : String) : String :=
  match q.find? (fun p => p.1 = key) with
  | some p => p.2
  | none => ""

/-! ## Modelled from the spec: the encoding/base32 collaborator
(StdEncoding with NoPadding, the form used inside otpauth URIs). -/

/-- The RFC 4648 base32 alphabet. -/
def base32Alphabet : List Char := "ABCDEFGHIJKLMNOPQRSTUVWXYZ234567".data

/-- The 8 bits of a byte, most significant first. -/
def byteToBits (n : Nat) : List Bool :=
  (List.range 8).map (fun i => n / 2 ^ (7 - i) % 2 = 1)

/-- Big-endian bit-list to number. -/
def bitsToNat (bits : List Bool) : Nat :=
  bits.foldl (fun acc b => 2 * acc + (if b then 1 else 0)) 0

/-- Chunk a bit list into 5-bit groups, zero-padding the last group. -/
def chunk5 : List Bool → List (List Bool)
  | [] => []
  | b0 :: b1 :: b2 :: b3 :: b4 :: rest => [b0, b1, b2, b3, b4] :: chunk5 rest
  | l => [l ++ List.replicate (5 - l.length) false]

/-- Collect full 8-bit groups, discarding a trailing partial group (Go's
base32 decoder uses only the complete bytes of the final quantum). -/
def bitsToBytes : List Bool → List Nat
  | b0 :: b1 :: b2 :: b3 :: b4 :: b5 :: b6 :: b7 :: rest =>
    bitsToNat [b0, b1, b2, b3, b4, b5, b6, b7] :: bitsToBytes rest
  | _ => []

/-- Base32 encode without padding (Go
`base32.StdEncoding.WithPadding(base32.NoPadding).EncodeToString`). -/
def base32Encode (bytes : List Nat) : String :=
  ((chunk5 (bytes.flatMap byteToBits)).map
    (fun g => base32Alphabet.getD (bitsToNat g) 'A')).asString

/-- Index of a character in the base32 alphabet. -/
def base32Val (c : Char) : Option Nat :=
  if 'A' ≤ c ∧ c ≤ 'Z' then some (c.toNat - 65)
  else if '2' ≤ c ∧ c ≤ '7' then some (c.toNat - 50 + 26)
  else none

/-- Decode each character to its 5-bit group; `none` on a character
outside the alphabet. -/
def base32Vals : List Char → Option (List Nat)
  | [] => some []
  | c :: rest =>
    match base32Val c with
    | some v => (base32Vals rest).map (v :: ·)
    | none => none

/-- The 5 bits of a group value, most significant first. -/
def groupToBits (n : Nat) : List Bool :=
  (List.range 5).map (fun i => n / 2 ^ (4 - i) % 2 = 1)

/-- Base32 decode without padding: every character must be in the
alphabet and the length must be a valid unpadded remainder (Go rejects
lengths `≡ 1, 3, 6 (mod 8)` as corrupt). -/
def base32Decode (s : String) : Option (List Nat) :=
  if s.length % 8 = 1 ∨ s.length % 8 = 3 ∨ s.length % 8 = 6 then none
  else
    match base32Vals s.data with
    | some vs => some (bitsToBytes (vs.flatMap groupToBits))
    | none => none

/-! ## Algorithm (src/totp/algorithm.go) and Digits (src/totp/digits.go) -/

/-- `Algorithm` is a Go named string type; kept as `String` here. -/
abbrev Algorithm := String

/-- From `src/totp/algorithm.go` `Algorithm.IsSupported`: true only for
the four closed values (`OptionAlgorithmDefault` is `"SHA1"`). -/
def algorithmIsSupported (algo : Algorithm) : Bool :=
  algo = "MD5" ∨ algo = "SHA1" ∨ algo = "SHA256" ∨ algo = "SHA512"

/-- Numeric ids of the pquerna/otp `otp.Algorithm` enumeration
(SHA1 = 0, SHA256 = 1, SHA512 = 2, MD5 = 3), with `-1` the unsupported
sentinel of issue #6. -/
def otpAlgorithm (algo : Algorithm) : Int :=
  if algo = "MD5" then 3
  else if algo = "SHA1" then 0
  else if algo = "SHA256" then 1
  else if algo = "SHA512" then 2
  else -1

/-- From `src/totp/algorithm.go` `Algorithm.String`:
`strings.ToUpper(string(algo))`. -/
def algorithmString (algo : Algorithm) : String := toUpperAscii algo

/-- `Digits` is a Go named uint type; kept as `Nat`. -/
abbrev Digits := Nat

/-- From `src/totp/digits.go` `Digits.OTPDigits`: `DigitsSix` and
`DigitsEight` map to the pquerna values 6 and 8; anything else falls
back to six. -/
def otpDigits (d : Digits) : Nat :=
  if d = 6 then 6 else if d = 8 then 8 else 6

/-- From `src/totp/digits.go` `NewDigitsStr`: `Digits(StrToUint(digits))`. -/
def NewDigitsStr (digits : String) : Digits := StrToUint digits

/-- From `src/totp/digits.go` `Digits.String`: decimal rendering. -/
def digitsString (d : Digits) : String := formatUint d

/-! ## Modelled from the spec: the crypto/ecdh collaborator

The ECDH primitive is external ("elliptic-curve Diffie-Hellman
primitives themselves" are out of scope, specified at their interface:
`privateKey.ECDH(peerPublicKey) → (sharedSecretBytes, error)`, erroring
on curve mismatch). It is modelled as commutative group exponentiation
modulo a prime, which realises exactly the interface the spec relies
on: determinism, the shared-secret agreement `privA·pubB = privB·pubA`,
and the curve-mismatch error. -/

/-- Modulus and generator of the model group. -/
def ecdhPrime : Nat := 251

/-- Generator of the model group. -/
def ecdhGen : Nat := 6

structure ECDHPrivateKey where
  curve : Nat
  scalar : Nat
deriving DecidableEq, Repr

structure ECDHPublicKey where
  curve : Nat
  point : Nat
deriving DecidableEq, Repr

/-- `privateKey.PublicKey()`: the group element `g ^ scalar`. -/
def ecdhPublicKeyOf (priv : ECDHPrivateKey) : ECDHPublicKey :=
  ⟨priv.curve, ecdhGen ^ priv.scalar % ecdhPrime⟩

/-- Render the model shared-secret group element as bytes. -/
def ecdhSharedBytes (x : Nat) : List Nat := [x % 256, x / 256 % 256]

/-- Modelled from the spec: `privateKey.ECDH(peerPublicKey)`, failing
with Go's curve-mismatch message when the two keys are on different
curves. -/
def ecdhExchange (priv : ECDHPrivateKey) (pub : ECDHPublicKey) : Except String (List Nat) :=
  if priv.curve ≠ pub.curve then
    .error "private key and public key curves do not match"
  else
    .ok (ecdhSharedBytes (pub.point ^ priv.scalar % ecdhPrime))

/-! ## Modelled from the spec: the BLAKE3 KDF collaborator

`blake3.DeriveKey(context, material, out)` fills `out` with a
deterministic digest of the context string and the key material,
producing exactly `len(out)` bytes. The model keeps exactly those
interface properties (determinism, output length, dependence on both
inputs). -/

/-- A deterministic mixing fold over the context and material. -/
def blake3Mix (ctx : String) (material : List Nat) : Nat :=
  (ctx.data.map Char.toNat ++ [0] ++ material).foldl
    (fun acc b => (acc * 131 + b + 7) % 65521) 1

/-- Modelled from the spec: `blake3.DeriveKey` producing `outLen` bytes. -/
def blake3DeriveKey (ctx : String) (material : List Nat) (outLen : Nat) : List Nat :=
  (List.range outLen).map (fun i => (blake3Mix ctx material * (i + 1) + i) % 256)

theorem blake3DeriveKey_length (ctx : String) (material : List Nat) (outLen : Nat) :
    (blake3DeriveKey ctx material outLen).length = outLen := by
  simp [blake3DeriveKey]

/-! ## Options (src/totp/options.go) -/

/-- The KDF signature of `src/totp/options.go`:
`func(secret, ctx []byte, outLen uint) ([]byte, error)`. -/
abbrev KDF := List Nat → List Nat → Nat → Except String (List Nat)

/-- From `src/totp/options.go` `OptionKDFDefault`: rejects an output
length above `math.MaxInt` or equal to zero, otherwise derives with
BLAKE3 (the `ctx` bytes are the context string). -/
def OptionKDFDefault (secret ctx : List Nat) (outLen : Nat) : Except String (List Nat) :=
  if outLen > 2 ^ 63 - 1 then
    .error ("output length too large: " ++ formatUint outLen)
  else if outLen = 0 then
    .error ("invalid output length: " ++ formatUint outLen)
  else
    .ok (blake3DeriveKey ((ctx.map Char.ofNat).asString) secret outLen)

/-- From `src/totp/options.go` `Options` (the current struct), plus the
`prependSecretInURI` field that the newest `WithSecretQueryFirst`
option assigns (its struct declaration is not among the staged files;
the field is carried here so that option can be embedded). -/
structure Options where
  accountName : String
  algorithm : Algorithm
  digits : Digits
  ecdhCtx : String
  ecdhPrivateKey : Option ECDHPrivateKey
  ecdhPublicKey : Option ECDHPublicKey
  issuer : String
  kdf : Option KDF
  period : Nat
  secretSize : Nat
  skew : Nat
  prependSecretInURI : Bool

/-- From `src/totp/options.go` `Options.SetDefault` (lines 111-133):
fill each zero-valued field with its default, in source order
(Algorithm `"SHA1"`, Digits 6, Period 30, SecretSize 128, Skew 1 - the
Skew default is the issue #42 fix). -/
def Options.SetDefault (opts : Options) : Options :=
  let o1 := if opts.algorithm = "" then { opts with algorithm := "SHA1" } else opts
  let o2 := if o1.digits = 0 then { o1 with digits := 6 } else o1
  let o3 := if o2.period = 0 then { o2 with period := 30 } else o2
  let o4 := if o3.secretSize = 0 then { o3 with secretSize := 128 } else o3
  if o4.skew = 0 then { o4 with skew := 1 } else o4

/-- The zero value of `Options` (Go `new(Options)`). -/
def Options.zero : Options :=
  ⟨"", "", 0, "", none, none, "", none, 0, 0, 0, false⟩

/-- From `src/totp/options.go` `NewOptions`: issuer and account name are
required; defaults are applied to a zero struct and then the two names
are set. -/
def NewOptions (issuer accountName : String) : Except String Options :=
  if issuer = "" ∨ accountName = "" then
    .error "issuer and accountName are required"
  else
    .ok { Options.zero.SetDefault with issuer := issuer, accountName := accountName }

/-! ## Composable option functions (src/unnamed/part_013, lines 608-761)

Go's `Option` is `func(*Options) error`; the receiver may be a nil
pointer, modelled as `none`. An assignment through a nil pointer is a
Go runtime panic, modelled as the distinguished outcome `nilPanic`. -/

inductive ApplyResult where
  | ok (opts : Options)
  | err (msg : String)
  | nilPanic

/-- The shared nil-receiver message `errNilOptions`. -/
def errNilOptions : String := "options is nil"

/-- `WithAlgorithm`: nil check, then reject unsupported algorithms,
then assign. -/
def WithAlgorithm (algo : Algorithm) (opts : Option Options) : ApplyResult :=
  match opts with
  | none => .err errNilOptions
  | some o =>
    if ¬algorithmIsSupported algo then
      .err ("unsupported algorithm: " ++ algorithmString algo)
    else
      .ok { o with algorithm := algo }

/-- `WithDigits`: nil check, then assign. -/
def WithDigits (digits : Digits) (opts : Option Options) : ApplyResult :=
  match opts with
  | none => .err errNilOptions
  | some o => .ok { o with digits := digits }

/-- `WithECDH`: nil check, then store the two ECDH keys and the context
string; the actual secret derivation happens in `GenerateKeyCustom`. -/
def WithECDH (localKey : ECDHPrivateKey) (remoteKey : ECDHPublicKey) (context : String)
    (opts : Option Options) : ApplyResult :=
  match opts with
  | none => .err errNilOptions
  | some o =>
    .ok { o with
      ecdhPrivateKey := some localKey
      ecdhPublicKey := some remoteKey
      ecdhCtx := context }

/-- `WithECDHKDF`: nil check, then store the user KDF. -/
def WithECDHKDF (userKDF : KDF) (opts : Option Options) : ApplyResult :=
  match opts with
  | none => .err errNilOptions
  | some o => .ok { o with kdf := some userKDF }

/-- `WithPeriod`: nil check, then assign. -/
def WithPeriod (period : Nat) (opts : Option Options) : ApplyResult :=
  match opts with
  | none => .err errNilOptions
  | some o => .ok { o with period := period }

/-- `WithSecretSize`: nil check, then assign. -/
def WithSecretSize (size : Nat) (opts : Option Options) : ApplyResult :=
  match opts with
  | none => .err errNilOptions
  | some o => .ok { o with secretSize := size }

/-- `WithSecretQueryFirst` (part_013 lines 739-745): assigns
`opts.prependSecretInURI` with no nil check, so a nil receiver is a
nil-pointer dereference. -/
def WithSecretQueryFirst (choice : Bool) (opts : Option Options) : ApplyResult :=
  match opts with
  | none => .nilPanic
  | some o => .ok { o with prependSecretInURI := choice }

/-- `WithSkew`: nil check, then assign. -/
def WithSkew (skew : Nat) (opts : Option Options) : ApplyResult :=
  match opts with
  | none => .err errNilOptions
  | some o => .ok { o with skew := skew }

/-! ## Modelled from the spec: the pquerna/otp HMAC-OTP primitive

The single-factor OTP engine is an external collaborator
(`GenerateCode(secret, time, ...)`, `Validate(code, secret, time, ...)`,
`Generate(issuer, account, ...)`). Its contract, per the spec: the
passcode is a deterministic function of (secret, `floor(t/Period)`,
Digits, Algorithm); validation checks the candidate against the window
of `2*Skew+1` counters centred on `floor(t/Period)` and reports errors
(e.g. a secret that is not valid base32) to the caller. Dynamic
truncation to a short decimal string is abstracted to an injective
encoding of those four inputs, so that distinct counters yield distinct
codes (truncation collisions have no bearing on the windowing logic the
claims are about). -/

/-- An abstract passcode: the data the HMAC-OTP primitive derives it
from. -/
structure OtpCode where
  secret : String
  counter : Int
  digits : Nat
  algo : Int
deriving DecidableEq, Repr

/-- The validation options handed to the primitive
(`totp.ValidateOpts`). -/
structure ValidateOpts where
  period : Nat
  skew : Nat
  digits : Nat
  algo : Int
deriving DecidableEq, Repr

/-- The HOTP counter for time `t`: `floor(t / Period)` (the primitive
computes `int64(math.Floor(float64(t.Unix()) / float64(period)))`). -/
def totpCounter (t : Int) (period : Nat) : Int := Int.fdiv t period

/-- Modelled from the spec: `totp.GenerateCodeCustom`. Fails when the
secret is not valid unpadded base32; otherwise the code for the counter
of `t`. -/
def GenerateCodeCustom (secret : String) (t : Int) (opts : ValidateOpts) :
    Except String OtpCode :=
  match base32Decode secret with
  | none => .error "Decoding of secret as base32 failed."
  | some _ => .ok ⟨secret, totpCounter t opts.period, opts.digits, opts.algo⟩

/-- The window of counters validation probes: the counter of `t` and
`i` periods either side for `1 ≤ i ≤ skew`. -/
def validationCounters (c : Int) (skew : Nat) : List Int :=
  c :: (List.range skew).flatMap (fun i => [c + (i + 1), c - (i + 1)])

/-- Modelled from the spec: `totp.ValidateCustom` of the primitive.
Reports an error for a passcode of the wrong length or a bad secret;
otherwise true exactly when some window counter reproduces the code. -/
def otpValidateCustom (passcode : OtpCode) (secret : String) (t : Int)
    (opts : ValidateOpts) : Except String Bool :=
  if passcode.digits ≠ opts.digits then
    .error "input length unexpected"
  else
    match base32Decode secret with
    | none => .error "Decoding of secret as base32 failed."
    | some _ =>
      .ok ((validationCounters (totpCounter t opts.period) opts.skew).any
        (fun k => passcode = ⟨secret, k, opts.digits, opts.algo⟩))

/-! ## Secret (src/totp/secret.go) -/

/-- A `Secret` is a Go byte slice. -/
abbrev Secret := List Nat

/-- From `src/totp/secret.go` `NewSecretBase32`: decode an unpadded
base32 string, wrapping decode failures. -/
def NewSecretBase32 (base32string : String) : Except String Secret :=
  match base32Decode base32string with
  | some bytes => .ok bytes
  | none => .error "failed to decode base32 string"

/-- From `src/totp/secret.go` `Secret.Base32` (also `Secret.String`). -/
def secretBase32 (s : Secret) : String := base32Encode s

/-! ## Validate / ValidateCustom (src/totp/totp.go, lines 59-77) -/

/-- From `src/totp/totp.go` `ValidateCustom`: delegate to the primitive
with the options' period, skew, digits and algorithm; false whenever the
primitive reports invalidity or an error. -/
def ValidateCustom (passcode : OtpCode) (secret : String) (validationTime : Int)
    (options : Options) : Bool :=
  match otpValidateCustom passcode secret validationTime
    ⟨options.period, options.skew, otpDigits options.digits,
      otpAlgorithm options.algorithm⟩ with
  | .ok isValid => isValid
  | .error _ => false

/-! ## Key (src/totp/key.go) -/

structure Key where
  secret : Secret
  options : Options

/-- From `src/totp/key.go` `Key.PassCodeCustom` (lines 362-374):
generate the passcode for the given time from the base32 form of the
secret and the stored options. -/
def Key.PassCodeCustom (k : Key) (genTime : Int) : Except String OtpCode :=
  GenerateCodeCustom (secretBase32 k.secret) genTime
    ⟨k.options.period, k.options.skew, otpDigits k.options.digits,
      otpAlgorithm k.options.algorithm⟩

/-- From `src/totp/key.go` `Key.ValidateCustom`: delegate to the
package-level `ValidateCustom` with the secret's base32 form. -/
def Key.ValidateCustomK (k : Key) (passcode : OtpCode) (validationTime : Int) : Bool :=
  ValidateCustom passcode (secretBase32 k.secret) validationTime k.options

/-- The `totp.GenerateOpts` the key generator hands to the primitive. -/
structure GenerateOpts where
  issuer : String
  accountName : String
  period : Nat
  secretSize : Nat
  secret : List Nat
  digits : Nat
  algo : Int

/-- Modelled from the spec: the primitive's `totp.Generate`
(`Generate(issuer, account, period, secretSize, digits, algorithm,
optionalSeed) → (secretBase32, error)`). Issuer and account name are
required; a provided non-empty secret is used as the key material,
otherwise `secretSize` fresh random bytes are drawn (`rand` makes the
entropy an explicit input). The returned secret is its unpadded-base32
form. -/
def totpGenerate (opts : GenerateOpts) (rand : Nat → Nat) : Except String String :=
  if opts.issuer = "" then .error "Issuer must be set"
  else if opts.accountName = "" then .error "AccountName must be set"
  else
    let size := if opts.secretSize = 0 then 20 else opts.secretSize
    let material :=
      if opts.secret.isEmpty then (List.range size).map (fun i => rand i % 256)
      else opts.secret
    .ok (base32Encode material)

/-- From `src/totp/key.go` `GenerateKeyCustom` (lines 205-255): when
both ECDH keys are set, compute the shared secret (curve mismatch fails
generation) and derive `SecretSize` bytes from it with `blake3.DeriveKey`
under the context string; hand the result (or an empty secret, meaning
random) to the primitive's generator; re-decode the returned base32
secret. Note the `Options.kdf` field is never consulted here. -/
def GenerateKeyCustom (options : Options) (rand : Nat → Nat) : Except String Key :=
  let internalSecE : Except String (List Nat) :=
    match options.ecdhPrivateKey, options.ecdhPublicKey with
    | some priv, some pub =>
      match ecdhExchange priv pub with
      | .error e => .error ("failed to generate ECDH shared secret: " ++ e)
      | .ok ecdhSecret => .ok (blake3DeriveKey options.ecdhCtx ecdhSecret options.secretSize)
    | _, _ => .ok []
  match internalSecE with
  | .error e => .error e
  | .ok internalSec =>
    match totpGenerate
        ⟨options.issuer, options.accountName, options.period, options.secretSize,
          internalSec, otpDigits options.digits, otpAlgorithm options.algorithm⟩ rand with
    | .error e => .error ("failed to generate key: " ++ e)
    | .ok secretStr =>
      match NewSecretBase32 secretStr with
      | .error e => .error ("failed to create secret: " ++ e)
      | .ok secret => .ok ⟨secret, options⟩

/-- Apply a list of option functions to a (non-nil) options value, as
`GenerateKey` does; the first error aborts. The `nilPanic` branch is
unreachable on a `some` receiver and mapped to an error for totality. -/
def applyOptions (o : Options) : List (Option Options → ApplyResult) → Except String Options
  | [] => .ok o
  | fn :: rest =>
    match fn (some o) with
    | .ok o2 => applyOptions o2 rest
    | .err e => .error e
    | .nilPanic => .error "panic: nil options"

/-- From `src/totp/key.go` `GenerateKey` (lines 181-196): build default
options from issuer and account name, apply the caller's option
functions, then `GenerateKeyCustom`. -/
def GenerateKey (issuer accountName : String)
    (optFns : List (Option Options → ApplyResult)) (rand : Nat → Nat) :
    Except String Key :=
  match NewOptions issuer accountName with
  | .error e => .error ("failed to create options during key generation: " ++ e)
  | .ok optsCustom =>
    match applyOptions optsCustom optFns with
    | .error e => .error ("failed to apply custom options: " ++ e)
    | .ok opts => GenerateKeyCustom opts rand

/-! ## URI (src/totp/uri.go, current variant) -/

/-- `URI` is a Go named string type over the raw otpauth URI. -/
abbrev URI := String

/-- `strings.TrimPrefix(s, "/")`. -/
def trimSlash (s : String) : String :=
  match s.data with
  | '/' :: rest => rest.asString
  | _ => s

/-- From `src/totp/uri.go` `URI.Scheme`: the parsed scheme, empty on a
parse error. -/
def URI.Scheme (u : URI) : String :=
  match urlParse u with
  | none => ""
  | some p => p.scheme

/-- From `src/totp/uri.go` `URI.Host`: the parsed host, empty on a
parse error. -/
def URI.Host (u : URI) : String :=
  match urlParse u with
  | none => ""
  | some p => p.host

/-- From `src/totp/uri.go` `URI.Path`: the parsed (decoded) path, empty
on a parse error. -/
def URI.Path (u : URI) : String :=
  match urlParse u with
  | none => ""
  | some p => p.path

/-- From `src/totp/uri.go` `URI.AccountName`: the label after the first
colon, or the whole label when it has no colon. -/
def URI.AccountName (u : URI) : String :=
  let path := trimSlash (URI.Path u)
  if path = "" then ""
  else if path.data.contains ':' then ((splitFirst ':' path.data).2).asString
  else path

/-- From `src/totp/uri.go` `URI.IssuerFromPath`: the label before the
first colon, or empty when it has no colon. -/
def URI.IssuerFromPath (u : URI) : String :=
  let path := trimSlash (URI.Path u)
  if path = "" then ""
  else if path.data.contains ':' then ((splitFirst ':' path.data).1).asString
  else ""

/-- The `issuer` query parameter as `URI.Issuer` reads it. -/
def URI.issuerFromQuery (u : URI) : String :=
  match urlParse u with
  | none => ""
  | some p => queryGet (parseQuery p.rawQuery) "issuer"

/-- From `src/totp/uri.go` `URI.Issuer` (lines 376-396, the strict
variant): the issuer must be present in both the path label and the
query parameter and the two must match; otherwise empty. -/
def URI.Issuer (u : URI) : String :=
  match urlParse u with
  | none => ""
  | some p =>
    let issuerPath := URI.IssuerFromPath u
    let issuerQuery := queryGet (parseQuery p.rawQuery) "issuer"
    if issuerPath ≠ "" ∧ issuerQuery ≠ "" ∧ issuerPath = issuerQuery then issuerQuery
    else ""

/-- From `src/totp/uri.go` `URI.Algorithm`: the raw `algorithm` query
parameter. -/
def URI.Algorithm (u : URI) : String :=
  match urlParse u with
  | none => ""
  | some p => queryGet (parseQuery p.rawQuery) "algorithm"

/-- From `src/totp/uri.go` `URI.Digits` (lines 349-364): the `digits`
query parameter through `strconv.ParseUint(s, 10, 64)`, 0 on error. -/
def URI.Digits (u : URI) : Nat :=
  match urlParse u with
  | none => 0
  | some p =>
    match goParseUint (queryGet (parseQuery p.rawQuery) "digits") 64 with
    | some v => v
    | none => 0

/-- From `src/totp/uri.go` `URI.Period` (lines 453-469): the `period`
query parameter through `strconv.ParseUint(s, 10, 64)`, 0 on error. -/
def URI.Period (u : URI) : Nat :=
  match urlParse u with
  | none => 0
  | some p =>
    match goParseUint (queryGet (parseQuery p.rawQuery) "period") 64 with
    | some v => v
    | none => 0

/-- From `src/totp/uri.go` `URI.Secret`: base32-decode the `secret`
query parameter; nil (`none`) when the URI is malformed, the decode
fails, or the decoded secret renders as the empty string. -/
def URI.Secret (u : URI) : Option Secret :=
  match urlParse u with
  | none => none
  | some p =>
    match NewSecretBase32 (queryGet (parseQuery p.rawQuery) "secret") with
    | .error _ => none
    | .ok secret => if secretBase32 secret = "" then none else some secret

/-- From `src/totp/uri.go` `URI.Check` (lines 310-347): structural
validation with one specific message per failing requirement, checked
in source order; the secret must decode to at least 16 bytes. -/
def URI.Check (u : URI) : Except String Unit :=
  if URI.Scheme u ≠ "otpauth" then
    .error "invalid scheme. it always should be `otpauth`"
  else if URI.Host u ≠ "totp" then
    .error "invalid host. it always should be `totp`"
  else if URI.Issuer u = "" then
    .error "missing issuer or issuer is not set correctly"
  else if URI.AccountName u = "" then
    .error "missing account name"
  else if URI.Secret u = none then
    .error "missing secret"
  else if URI.Algorithm u = "" then
    .error "missing algorithm"
  else if URI.Digits u = 0 then
    .error "missing digits or zero digits set"
  else if URI.Period u = 0 then
    .error "missing period or zero period set"
  else if ¬algorithmIsSupported (URI.Algorithm u) then
    .error ("unsupported algorithm: " ++ URI.Algorithm u)
  else if ((URI.Secret u).getD []).length < 16 then
    .error "secret is too short. it should be at least 16 bytes"
  else
    .ok ()

/-- From `src/totp/key.go` `GenKeyFromURI` (lines 310-335): validate
the URI, generate a key with default options from its issuer and
account name, then overwrite secret, secret size, period, algorithm and
digits with the URI's values (skew is not among them). -/
def GenKeyFromURI (uri : String) (rand : Nat → Nat) : Except String Key :=
  match URI.Check uri with
  | .error e => .error ("failed to create URI object from the given URI: " ++ e)
  | .ok _ =>
    match GenerateKey (URI.Issuer uri) (URI.AccountName uri) [] rand with
    | .error e => .error ("failed to generate key: " ++ e)
    | .ok key =>
      let secret := (URI.Secret uri).getD []
      .ok { key with
        secret := secret
        options := { key.options with
          secretSize := secret.length
          period := URI.Period uri
          algorithm := URI.Algorithm uri
          digits := URI.Digits uri } }

/-! ## Modelled from the spec: the encoding/pem collaborator

The PEM codec is Go's `encoding/pem` (external). The spec fixes its
interface: a block has a type tag, `key: value` headers and raw body
bytes; a PEM string is a sequence of such blocks; encoding fails
(returns nil) for headers the textual format cannot carry (a colon in a
key, a newline in a key or value); decoding yields the first block and
the remaining input. The model works at block granularity: a PEM string
is the list of blocks it contains. -/

structure PemBlock where
  type : String
  headers : List (String × String)
  bytes : List Nat

/-- Go map lookup with the zero-value default (missing header reads as
the empty string). -/
def headersGet (hs : List (String × String)) (key : String) : String :=
  match hs.find? (fun p => p.1 = key) with
  | some p => p.2
  | none => ""

/-- Headers the textual PEM format can carry: no colon in a key, no
newline in a key or value (Go `pem.Encode` rejects these). -/
def pemHeadersValid (hs : List (String × String)) : Bool :=
  hs.all (fun p =>
    ¬p.1.data.contains ':' ∧ ¬p.1.data.contains '\n' ∧ ¬p.2.data.contains '\n')

/-- Modelled from the spec: `pem.EncodeToMemory`; nil (`none`) when the
block's headers cannot be encoded. -/
def pemEncodeToMemory (b : PemBlock) : Option (List PemBlock) :=
  if pemHeadersValid b.headers then some [b] else none

/-- Modelled from the spec: `pem.Decode`: the next block and the rest of
the input (no block in empty input). -/
def pemDecode (data : List PemBlock) : Option PemBlock × List PemBlock :=
  match data with
  | [] => (none, [])
  | b :: rest => (some b, rest)

/-- From `src/totp/key.go`: the PEM block type tag `BlockTypeTOTP`. -/
def BlockTypeTOTP : String := "TOTP SECRET KEY"

/-- From `src/totp/key.go` `Key.PEM` (lines 377-397): emit one block of
type `TOTP SECRET KEY` whose headers carry the options and whose body is
the raw secret; a nil encoder result is an error. -/
def Key.PEM (k : Key) : Except String (List PemBlock) :=
  match pemEncodeToMemory
    ⟨BlockTypeTOTP,
      [("Account Name", k.options.accountName),
       ("Algorithm", algorithmString k.options.algorithm),
       ("Digits", digitsString k.options.digits),
       ("Issuer", k.options.issuer),
       ("Period", formatUint k.options.period),
       ("Secret Size", formatUint k.options.secretSize),
       ("Skew", formatUint k.options.skew)],
      k.secret⟩ with
  | none => .error "failed to encode key to PEM"
  | some out => .ok out

/-- The Key read out of a TOTP PEM block in `GenKeyFromPEM`: numeric
headers go through `StrToUint` (0 on failure), digits through
`NewDigitsStr`, the rest are copied; the ECDH fields stay zero. -/
def keyOfPemBlock (block : PemBlock) : Key :=
  { secret := block.bytes
    options :=
      { accountName := headersGet block.headers "Account Name"
        algorithm := headersGet block.headers "Algorithm"
        digits := NewDigitsStr (headersGet block.headers "Digits")
        ecdhCtx := ""
        ecdhPrivateKey := none
        ecdhPublicKey := none
        issuer := headersGet block.headers "Issuer"
        period := StrToUint (headersGet block.headers "Period")
        secretSize := StrToUint (headersGet block.headers "Secret Size")
        skew := StrToUint (headersGet block.headers "Skew")
        kdf := none
        prependSecretInURI := false } }

/-- From `src/totp/key.go` `GenKeyFromPEM` (lines 267-295): take the
first block; a TOTP block yields the key, another block type recurses
into the rest when any remains, and otherwise the scan fails. -/
def GenKeyFromPEM : List PemBlock → Except String Key
  | [] => .error "failed to decode PEM block containing TOTP secret key"
  | block :: rest =>
    if block.type = BlockTypeTOTP then .ok (keyOfPemBlock block)
    else if ¬rest.isEmpty then GenKeyFromPEM rest
    else .error "failed to decode PEM block containing TOTP secret key"

/-! ## Decimal parsing characterisation (for the URI numeric accessors) -/

/-- A non-empty string of ASCII digits. -/
def isDecimalString (s : String) : Bool :=
  ¬s.data.isEmpty && s.data.all (fun c => (digitVal c).isSome)

/-- The decimal value of a digit string (junk characters count 0). -/
def decimalValue (s : String) : Nat :=
  s.data.foldl (fun acc c => acc * 10 + (digitVal c).getD 0) 0

theorem parseDecAux_all_digits (cs : List Char) (acc : Nat)
    (h : ∀ c ∈ cs, (digitVal c).isSome) :
    parseDecAux acc cs = some (cs.foldl (fun a c => a * 10 + (digitVal c).getD 0) acc) := by
  induction cs generalizing acc with
  | nil => simp [parseDecAux]
  | cons c rest ih =>
    obtain ⟨d, hd⟩ := Option.isSome_iff_exists.mp (h c (by simp))
    simp only [parseDecAux, hd, List.foldl_cons, Option.getD_some]
    exact ih _ (fun x hx => h x (by simp [hx]))

theorem parseDecAux_not_digits (cs : List Char) (acc : Nat)
    (h : ¬∀ c ∈ cs, (digitVal c).isSome) :
    parseDecAux acc cs = none := by
  induction cs generalizing acc with
  | nil => simp at h
  | cons c rest ih =>
    cases hd : digitVal c with
    | none => simp [parseDecAux, hd]
    | some d =>
      simp only [parseDecAux, hd]
      apply ih
      intro hall
      apply h
      intro x hx
      rcases List.mem_cons.mp hx with hx | hx
      · subst hx; simp [hd]
      · exact hall x hx

theorem goParseUint_eq_decimal (s : String) (bits : Nat) :
    goParseUint s bits =
      if isDecimalString s ∧ decimalValue s < 2 ^ bits then some (decimalValue s)
      else none := by
  unfold goParseUint isDecimalString decimalValue
  cases hemp : s.data.isEmpty with
  | true =>
    have : s.data = [] := by simpa using hemp
    simp [this]
  | false =>
    simp only [Bool.false_eq_true, if_false]
    by_cases hall : ∀ x ∈ s.data, (digitVal x).isSome
    · rw [parseDecAux_all_digits _ _ hall]
      have hallb : s.data.all (fun x => (digitVal x).isSome) = true := by
        simp only [List.all_eq_true]; exact fun x hx => hall x hx
      by_cases hlt : s.data.foldl (fun a x => a * 10 + (digitVal x).getD 0) 0 < 2 ^ bits
      · simp [hlt, hallb, hemp]
      · simp [hlt, hallb, hemp]
    · rw [parseDecAux_not_digits _ _ hall]
      have : s.data.all (fun x => (digitVal x).isSome) = false := by
        simp only [List.all_eq_false]
        push_neg at hall
        obtain ⟨x, hx, hxd⟩ := hall
        exact ⟨x, hx, by simpa using hxd⟩
      simp [this]

/-- The named query parameter of a URI, the empty string when the URI is
malformed (the common subexpression of the numeric accessors). -/
def uriQueryParam (u : URI) (key : String) : String :=
  match urlParse u with
  | none => ""
  | some p => queryGet (parseQuery p.rawQuery) key

/-- C6 (amended): `Digits()` and `Period()` return 0 exactly when the
query parameter is not a decimal numeral or its value does not fit in
64 bits (not 32: the accessors parse with `bitSize` 64); otherwise they
return the parsed value. -/
theorem uri_digits_period_64bit (u : URI) :
    (URI.Digits u =
      if isDecimalString (uriQueryParam u "digits")
          ∧ decimalValue (uriQueryParam u "digits") < 2 ^ 64 then
        decimalValue (uriQueryParam u "digits")
      else 0)
  ∧ (URI.Period u =
      if isDecimalString (uriQueryParam u "period")
          ∧ decimalValue (uriQueryParam u "period") < 2 ^ 64 then
        decimalValue (uriQueryParam u "period")
      else 0) := by
  constructor
  · unfold URI.Digits uriQueryParam
    cases h : urlParse u with
    | none => simp [isDecimalString, decimalValue]
    | some p =>
      dsimp only
      rw [goParseUint_eq_decimal]
      split_ifs <;> simp
  · unfold URI.Period uriQueryParam
    cases h : urlParse u with
    | none => simp [isDecimalString, decimalValue]
    | some p =>
      dsimp only
      rw [goParseUint_eq_decimal]
      split_ifs <;> simp

/-- C6 (counterexample): a `digits` value of `2 ^ 32` is in range for
the accessor and is returned as-is, where the claim requires 0. -/
theorem uri_digits_2pow32_counterexample :
    URI.Digits "otpauth://totp/Example.com:alice@example.com?digits=4294967296"
      = 4294967296
  ∧ (4294967296 : Nat) = 2 ^ 32 ∧ (4294967296 : Nat) ≠ 0 := by
  refine ⟨?_, by norm_num, by norm_num⟩
  rfl

/-- C7: `SetDefault` fills exactly the zero-valued option fields with
their defaults (Algorithm `"SHA1"`, Digits 6, Period 30, SecretSize
128, Skew 1) and leaves every other field, and every non-zero field,
unchanged. -/
theorem setDefault_fills_only_zero_fields (o : Options) :
    o.SetDefault.algorithm = (if o.algorithm = "" then "SHA1" else o.algorithm)
  ∧ o.SetDefault.digits = (if o.digits = 0 then 6 else o.digits)
  ∧ o.SetDefault.period = (if o.period = 0 then 30 else o.period)
  ∧ o.SetDefault.secretSize = (if o.secretSize = 0 then 128 else o.secretSize)
  ∧ o.SetDefault.skew = (if o.skew = 0 then 1 else o.skew)
  ∧ o.SetDefault.issuer = o.issuer
  ∧ o.SetDefault.accountName = o.accountName
  ∧ o.SetDefault.ecdhCtx = o.ecdhCtx
  ∧ o.SetDefault.ecdhPrivateKey = o.ecdhPrivateKey
  ∧ o.SetDefault.ecdhPublicKey = o.ecdhPublicKey
  ∧ o.SetDefault.kdf = o.kdf
  ∧ o.SetDefault.prependSecretInURI = o.prependSecretInURI := by
  unfold Options.SetDefault
  split_ifs <;> simp_all

/-- C9: every option function rejects a nil receiver with the
`options is nil` error, except `WithSecretQueryFirst`, which assigns
through the nil pointer (a Go runtime panic). -/
theorem option_functions_nil_receiver (algo : Algorithm) (digits : Digits)
    (priv : ECDHPrivateKey) (pub : ECDHPublicKey) (ctx : String) (f : KDF)
    (period size skew : Nat) (choice : Bool) :
    WithAlgorithm algo none = .err errNilOptions
  ∧ WithDigits digits none = .err errNilOptions
  ∧ WithECDH priv pub ctx none = .err errNilOptions
  ∧ WithECDHKDF f none = .err errNilOptions
  ∧ WithPeriod period none = .err errNilOptions
  ∧ WithSecretSize size none = .err errNilOptions
  ∧ WithSkew skew none = .err errNilOptions
  ∧ WithSecretQueryFirst choice none = .nilPanic :=
  ⟨rfl, rfl, rfl, rfl, rfl, rfl, rfl, rfl⟩

/-- C4: `Issuer()` is non-empty exactly when the path-label issuer and
the `issuer` query parameter are both present and identical, and then
it returns that common value; a disagreeing pair (path `Example.com`,
query `Other.com`) yields the empty string. -/
theorem uri_issuer_agreement (u : URI) :
    (URI.Issuer u ≠ "" ↔
      URI.IssuerFromPath u ≠ "" ∧ URI.issuerFromQuery u ≠ ""
        ∧ URI.IssuerFromPath u = URI.issuerFromQuery u)
  ∧ (URI.Issuer u =
      if URI.IssuerFromPath u ≠ "" ∧ URI.issuerFromQuery u ≠ ""
          ∧ URI.IssuerFromPath u = URI.issuerFromQuery u then
        URI.issuerFromQuery u
      else "")
  ∧ URI.Issuer
      "otpauth://totp/Example.com:alice@example.com?issuer=Other.com&secret=AAAA"
      = "" := by
  refine ⟨?_, ?_, by rfl⟩
  · unfold URI.Issuer URI.issuerFromQuery
    cases h : urlParse u with
    | none =>
      have hp : URI.IssuerFromPath u = "" := by
        unfold URI.IssuerFromPath URI.Path
        rw [h]
        simp [trimSlash]
      simp [hp]
    | some p =>
      dsimp only
      split_ifs with hc
      · simp only [ne_eq]
        constructor
        · intro _; exact hc
        · intro _; exact hc.2.1
      · simp only [ne_eq, not_true_eq_false]
        tauto
  · unfold URI.Issuer URI.issuerFromQuery
    cases h : urlParse u with
    | none =>
      have hp : URI.IssuerFromPath u = "" := by
        unfold URI.IssuerFromPath URI.Path
        rw [h]
        simp [trimSlash]
      simp [hp]
    | some p =>
      dsimp only

/-- C8: once scheme, host, issuer, account name, secret presence,
algorithm, digits and period checks pass, `Check()` fails with the
`secret is too short` message exactly when the decoded secret is under
16 bytes, and succeeds otherwise. -/
theorem uri_check_secret_length (u : URI) (s : Secret)
    (hscheme : URI.Scheme u = "otpauth")
    (hhost : URI.Host u = "totp")
    (hissuer : URI.Issuer u ≠ "")
    (haccount : URI.AccountName u ≠ "")
    (hsecret : URI.Secret u = some s)
    (halgo : algorithmIsSupported (URI.Algorithm u))
    (hdigits : URI.Digits u ≠ 0)
    (hperiod : URI.Period u ≠ 0) :
    (s.length < 16 →
      ∃ e, URI.Check u = .error e
        ∧ containsSubstr e "secret is too short" = true)
  ∧ (16 ≤ s.length → URI.Check u = .ok ()) := by
  have halgoNe : URI.Algorithm u ≠ "" := by
    intro hh
    rw [hh] at halgo
    simp [algorithmIsSupported] at halgo
  have hsecretNe : URI.Secret u ≠ none := by simp [hsecret]
  unfold URI.Check
  rw [if_neg (by simp [hscheme]), if_neg (by simp [hhost]), if_neg hissuer,
    if_neg haccount, if_neg hsecretNe, if_neg halgoNe, if_neg hdigits,
    if_neg hperiod, if_neg (by simp [halgo])]
  rw [hsecret]
  constructor
  · intro hlen
    refine ⟨"secret is too short. it should be at least 16 bytes", ?_, by decide⟩
    rw [if_pos (by simpa using hlen)]
  · intro hlen
    rw [if_neg (by simpa using Nat.not_lt.mpr hlen)]

set_option maxRecDepth 16384 in
/-- C8 (witness): a URI whose secret decodes to 16 bytes passes
`Check()`; one whose secret decodes to 2 bytes fails with the
`secret is too short` message. -/
theorem uri_check_secret_length_witness :
    URI.Check
      "otpauth://totp/Example.com:alice@example.com?algorithm=SHA1&digits=6&issuer=Example.com&period=30&secret=AAAAAAAAAAAAAAAAAAAAAAAAAA"
      = .ok ()
  ∧ ∃ e, URI.Check
      "otpauth://totp/Example.com:alice@example.com?algorithm=SHA1&digits=6&issuer=Example.com&period=30&secret=AAAA"
      = .error e ∧ containsSubstr e "secret is too short" = true := by
  constructor
  · exact (uri_check_secret_length
      "otpauth://totp/Example.com:alice@example.com?algorithm=SHA1&digits=6&issuer=Example.com&period=30&secret=AAAAAAAAAAAAAAAAAAAAAAAAAA"
      (List.replicate 16 0) rfl rfl (by decide) (by decide) (by rfl) (by decide)
      (by decide) (by decide)).2 (by decide)
  · exact (uri_check_secret_length
      "otpauth://totp/Example.com:alice@example.com?algorithm=SHA1&digits=6&issuer=Example.com&period=30&secret=AAAA"
      [0, 0] rfl rfl (by decide) (by decide) (by rfl) (by decide)
      (by decide) (by decide)).1 (by decide)

/-! ## The validation window (claim C1) -/

theorem mem_validationCounters (c k : Int) (skew : Nat) :
    k ∈ validationCounters c skew ↔ (k - c).natAbs ≤ skew := by
  induction skew with
  | zero =>
    simp only [validationCounters, List.range_zero, List.flatMap_nil,
      List.mem_singleton]
    omega
  | succ s ih =>
    have hsplit : validationCounters c (s + 1)
        = c :: ((List.range s).flatMap (fun i => [c + (i + 1), c - (i + 1)])
            ++ [c + (s + 1), c - (s + 1)]) := by
      simp [validationCounters, List.range_succ]
    have hprev : validationCounters c s
        = c :: (List.range s).flatMap (fun i => [c + (i + 1), c - (i + 1)]) := rfl
    rw [hprev] at ih
    rw [hsplit]
    simp only [List.mem_cons, List.mem_append] at ih ⊢
    constructor
    · rintro (h | h | h)
      · omega
      · have hle := ih.mp (Or.inr h)
        omega
      · simp only [List.mem_cons, List.mem_singleton, List.not_mem_nil, or_false] at h
        omega
    · intro h
      by_cases hk : (k - c).natAbs ≤ s
      · rcases ih.mpr hk with h1 | h1
        · exact Or.inl h1
        · exact Or.inr (Or.inl h1)
      · have : k = c + (s + 1) ∨ k = c - (s + 1) := by omega
        refine Or.inr (Or.inr ?_)
        simp only [List.mem_cons, List.mem_singleton, List.not_mem_nil, or_false]
        exact this

/-- C1: a passcode `PassCodeCustom` generates at time `t` is accepted
by `ValidateCustom` at time `t2` exactly when the counters of `t` and
`t2` differ by at most `Skew` periods; and whenever the underlying OTP
primitive reports an error, `ValidateCustom` returns false. -/
theorem passcode_validation_window (k : Key) (t t2 : Int) (code : OtpCode)
    (hP : 0 < k.options.period)
    (hgen : k.PassCodeCustom t = .ok code) :
    (k.ValidateCustomK code t2 = true ↔
      (totpCounter t2 k.options.period - totpCounter t k.options.period).natAbs
        ≤ k.options.skew)
  ∧ (∀ (pass : OtpCode) (sec : String) (t3 : Int) (o : Options) (e : String),
      otpValidateCustom pass sec t3
        ⟨o.period, o.skew, otpDigits o.digits, otpAlgorithm o.algorithm⟩ = .error e →
      ValidateCustom pass sec t3 o = false) := by
  constructor
  · unfold Key.PassCodeCustom GenerateCodeCustom at hgen
    cases hdec : base32Decode (secretBase32 k.secret) with
    | none => rw [hdec] at hgen; cases hgen
    | some bs =>
      rw [hdec] at hgen
      have hcode : code = ⟨secretBase32 k.secret, totpCounter t k.options.period,
          otpDigits k.options.digits, otpAlgorithm k.options.algorithm⟩ := by
        cases hgen; rfl
      unfold Key.ValidateCustomK ValidateCustom otpValidateCustom
      rw [hcode]
      dsimp only
      rw [if_neg (by simp), hdec]
      dsimp only
      simp only [List.any_eq_true, decide_eq_true_eq]
      constructor
      · rintro ⟨kc, hkmem, hkeq⟩
        have hkc : totpCounter t k.options.period = kc := by
          have := congrArg OtpCode.counter hkeq
          simpa using this
        subst hkc
        have := (mem_validationCounters _ _ _).mp hkmem
        omega
      · intro h
        refine ⟨totpCounter t k.options.period, ?_, rfl⟩
        rw [mem_validationCounters]
        omega
  · intro pass sec t3 o e he
    unfold ValidateCustom
    rw [he]

/-- The concrete key of the C1 witness: Period 30, Skew 1, a 16-byte
secret. -/
def keyC1 : Key :=
  ⟨List.replicate 16 0,
    ⟨"alice@example.com", "SHA1", 6, "", none, none, "Example.com", none,
      30, 16, 1, false⟩⟩

/-- The passcode `keyC1` generates at `T = 1700000000`
(counter `⌊T/30⌋ = 56666666`). -/
def codeC1 : OtpCode := ⟨"AAAAAAAAAAAAAAAAAAAAAAAAAA", 56666666, 6, 0⟩

set_option maxRecDepth 16384 in
/-- C1 (witness): with Period 30 and Skew 1, the passcode generated at
`T = 1700000000` validates at `T`, `T+29` and `T+35`, and does not
validate at `T+61` or `T+65`. -/
theorem passcode_validation_window_witness :
    keyC1.PassCodeCustom 1700000000 = .ok codeC1
  ∧ keyC1.ValidateCustomK codeC1 1700000000 = true
  ∧ keyC1.ValidateCustomK codeC1 1700000029 = true
  ∧ keyC1.ValidateCustomK codeC1 1700000035 = true
  ∧ keyC1.ValidateCustomK codeC1 1700000061 = false
  ∧ keyC1.ValidateCustomK codeC1 1700000065 = false := by
  refine ⟨rfl, ?_, ?_, ?_, ?_, ?_⟩
  · exact (passcode_validation_window keyC1 1700000000 1700000000 codeC1
      (by decide) rfl).1.mpr (by decide)
  · exact (passcode_validation_window keyC1 1700000000 1700000029 codeC1
      (by decide) rfl).1.mpr (by decide)
  · exact (passcode_validation_window keyC1 1700000000 1700000035 codeC1
      (by decide) rfl).1.mpr (by decide)
  · exact Bool.eq_false_iff.mpr (fun hb =>
      absurd ((passcode_validation_window keyC1 1700000000 1700000061 codeC1
        (by decide) rfl).1.mp hb) (by decide))
  · exact Bool.eq_false_iff.mpr (fun hb =>
      absurd ((passcode_validation_window keyC1 1700000000 1700000065 codeC1
        (by decide) rfl).1.mp hb) (by decide))

/-- C10: any key reconstructed by `GenKeyFromURI` from a URI that
passes `Check()` carries the default Skew of 1: the otpauth URI has no
skew parameter and `GenKeyFromURI` never overwrites the default. -/
theorem genKeyFromURI_skew_default (uri : String) (rand : Nat → Nat) (k : Key)
    (hcheck : URI.Check uri = .ok ())
    (hgen : GenKeyFromURI uri rand = .ok k) :
    k.options.skew = 1 := by
  unfold GenKeyFromURI at hgen
  rw [hcheck] at hgen
  dsimp only at hgen
  cases hg : GenerateKey (URI.Issuer uri) (URI.AccountName uri) [] rand with
  | error e => rw [hg] at hgen; cases hgen
  | ok key =>
    rw [hg] at hgen
    dsimp only at hgen
    have hk : k.options.skew = key.options.skew := by
      cases hgen; rfl
    rw [hk]
    unfold GenerateKey at hg
    cases hno : NewOptions (URI.Issuer uri) (URI.AccountName uri) with
    | error e => rw [hno] at hg; cases hg
    | ok opts =>
      rw [hno] at hg
      dsimp only [applyOptions] at hg
      have hskew : opts.skew = 1 := by
        unfold NewOptions at hno
        by_cases hreq : URI.Issuer uri = "" ∨ URI.AccountName uri = ""
        · rw [if_pos hreq] at hno; cases hno
        · rw [if_neg hreq] at hno
          cases hno; rfl
      unfold GenerateKeyCustom at hg
      have hpriv : opts.ecdhPrivateKey = none := by
        unfold NewOptions at hno
        by_cases hreq : URI.Issuer uri = "" ∨ URI.AccountName uri = ""
        · rw [if_pos hreq] at hno; cases hno
        · rw [if_neg hreq] at hno
          cases hno; rfl
      rw [hpriv] at hg
      dsimp only at hg
      cases hgen2 : totpGenerate
          ⟨opts.issuer, opts.accountName, opts.period, opts.secretSize, [],
            otpDigits opts.digits, otpAlgorithm opts.algorithm⟩ rand with
      | error e => rw [hgen2] at hg; cases hg
      | ok secretStr =>
        rw [hgen2] at hg
        dsimp only at hg
        cases hsec : NewSecretBase32 secretStr with
        | error e => rw [hsec] at hg; cases hg
        | ok secret =>
          rw [hsec] at hg
          dsimp only at hg
          cases hg
          exact hskew

/-- Is an `Except` value an `ok`? -/
def isOkE {α β : Type} : Except α β → Bool
  | .ok _ => true
  | .error _ => false

set_option maxRecDepth 16384 in
/-- C10 (witness): parsing a concrete checked URI yields a key with
Skew 1. -/
theorem genKeyFromURI_skew_default_witness :
    ∃ k, GenKeyFromURI
      "otpauth://totp/Example.com:alice@example.com?algorithm=SHA1&digits=6&issuer=Example.com&period=30&secret=AAAAAAAAAAAAAAAAAAAAAAAAAA"
      (fun _ => 0) = .ok k ∧ k.options.skew = 1 := by
  have hok : isOkE (GenKeyFromURI
      "otpauth://totp/Example.com:alice@example.com?algorithm=SHA1&digits=6&issuer=Example.com&period=30&secret=AAAAAAAAAAAAAAAAAAAAAAAAAA"
      (fun _ => 0)) = true := by decide
  cases hg : GenKeyFromURI
      "otpauth://totp/Example.com:alice@example.com?algorithm=SHA1&digits=6&issuer=Example.com&period=30&secret=AAAAAAAAAAAAAAAAAAAAAAAAAA"
      (fun _ => 0) with
  | error e =>
    rw [hg] at hok
    exact absurd hok (by simp [isOkE])
  | ok k =>
    exact ⟨k, rfl, genKeyFromURI_skew_default
      "otpauth://totp/Example.com:alice@example.com?algorithm=SHA1&digits=6&issuer=Example.com&period=30&secret=AAAAAAAAAAAAAAAAAAAAAAAAAA"
      (fun _ => 0) k (by rfl) hg⟩

/-- Options for the C3 evidence: ECDH keys set, `SecretSize = 0` (the
configuration whose derivation the repository's own test expects to
fail with the default KDF's `invalid output length` error). -/
def optsC3 : Options :=
  ⟨"alice@example.com", "SHA1", 6, "my context", some ⟨1, 3⟩,
    some (ecdhPublicKeyOf ⟨1, 5⟩), "Example.com", none, 30, 0, 1, false⟩

set_option maxRecDepth 16384 in
/-- C3 (code_bug evidence): the secret `GenerateKeyCustom` produces is
independent of the `Options.kdf` field that `WithECDHKDF` installs (the
generated key only carries the field along, unused), and key-agreement
generation with `SecretSize = 0` succeeds, although the configured
default KDF `OptionKDFDefault` rejects a zero output length (the error
the repository's test `TestGenerateKey_key_legth_is_zero` requires). -/
theorem generateKeyCustom_ignores_custom_kdf (o : Options) (f : KDF) (rand : Nat → Nat) :
    (GenerateKeyCustom { o with kdf := some f } rand).map Key.secret
      = (GenerateKeyCustom { o with kdf := none } rand).map Key.secret
  ∧ OptionKDFDefault [1, 2, 3] [99] 0 = .error "invalid output length: 0"
  ∧ isOkE (GenerateKeyCustom optsC3 (fun _ => 0)) = true := by
  refine ⟨?_, by rfl, by decide⟩
  obtain ⟨acc, alg, dig, ectx, epriv, epub, iss, kdf0, per, ssz, skw, pre⟩ := o
  unfold GenerateKeyCustom
  dsimp only
  cases epriv with
  | none =>
    dsimp only
    cases totpGenerate ⟨iss, acc, per, ssz, [], otpDigits dig, otpAlgorithm alg⟩ rand with
    | error e => rfl
    | ok str =>
      dsimp only
      cases NewSecretBase32 str <;> rfl
  | some priv =>
    cases epub with
    | none =>
      dsimp only
      cases totpGenerate ⟨iss, acc, per, ssz, [], otpDigits dig, otpAlgorithm alg⟩ rand with
      | error e => rfl
      | ok str =>
        dsimp only
        cases NewSecretBase32 str <;> rfl
    | some pub =>
      dsimp only
      cases ecdhExchange priv pub with
      | error e => rfl
      | ok shared =>
        dsimp only
        cases totpGenerate ⟨iss, acc, per, ssz, blake3DeriveKey ectx shared ssz,
            otpDigits dig, otpAlgorithm alg⟩ rand with
        | error e => rfl
        | ok str =>
          dsimp only
          cases NewSecretBase32 str <;> rfl

/-- C2: the two sides of an ECDH exchange on the same curve, with the
same context and base options, generate keys whose passcodes agree at
every instant; generation from keys on different curves fails with the
curve-mismatch error. -/
theorem ecdh_agreement (base : Options) (curve a b : Nat) (ctx : String)
    (randA randB : Nat → Nat) (t : Int) (oA oB : Options) (kA kB : Key)
    (hsize : 0 < base.secretSize)
    (hA : WithECDH ⟨curve, a⟩ (ecdhPublicKeyOf ⟨curve, b⟩) ctx (some base) = .ok oA)
    (hB : WithECDH ⟨curve, b⟩ (ecdhPublicKeyOf ⟨curve, a⟩) ctx (some base) = .ok oB)
    (hgA : GenerateKeyCustom oA randA = .ok kA)
    (hgB : GenerateKeyCustom oB randB = .ok kB) :
    kA.PassCodeCustom t = kB.PassCodeCustom t
  ∧ (∀ (o : Options) (priv : ECDHPrivateKey) (pub : ECDHPublicKey) (rand : Nat → Nat),
      o.ecdhPrivateKey = some priv → o.ecdhPublicKey = some pub →
      priv.curve ≠ pub.curve →
      GenerateKeyCustom o rand
        = .error "failed to generate ECDH shared secret: private key and public key curves do not match") := by
  constructor
  · unfold WithECDH at hA hB
    cases hA
    cases hB
    have hexA : ecdhExchange ⟨curve, a⟩ (ecdhPublicKeyOf ⟨curve, b⟩)
        = .ok (ecdhSharedBytes ((ecdhGen ^ b % ecdhPrime) ^ a % ecdhPrime)) := by
      unfold ecdhExchange ecdhPublicKeyOf
      rw [if_neg (by simp)]
    have hexB : ecdhExchange ⟨curve, b⟩ (ecdhPublicKeyOf ⟨curve, a⟩)
        = .ok (ecdhSharedBytes ((ecdhGen ^ b % ecdhPrime) ^ a % ecdhPrime)) := by
      unfold ecdhExchange ecdhPublicKeyOf
      rw [if_neg (by simp)]
      have hpow : (ecdhGen ^ a % ecdhPrime) ^ b % ecdhPrime
          = (ecdhGen ^ b % ecdhPrime) ^ a % ecdhPrime := by
        rw [← Nat.pow_mod, ← Nat.pow_mod, ← pow_mul, ← pow_mul, Nat.mul_comm]
      rw [hpow]
    unfold GenerateKeyCustom at hgA hgB
    dsimp only at hgA hgB
    rw [hexA] at hgA
    rw [hexB] at hgB
    dsimp only at hgA hgB
    by_cases hiss : base.issuer = ""
    · unfold totpGenerate at hgA
      rw [if_pos hiss] at hgA
      cases hgA
    by_cases hacc : base.accountName = ""
    · unfold totpGenerate at hgA
      rw [if_neg hiss, if_pos hacc] at hgA
      cases hgA
    have hne : (blake3DeriveKey ctx
        (ecdhSharedBytes ((ecdhGen ^ b % ecdhPrime) ^ a % ecdhPrime))
        base.secretSize).isEmpty = false := by
      rw [List.isEmpty_eq_false_iff_exists_mem]
      have hlen := blake3DeriveKey_length ctx
        (ecdhSharedBytes ((ecdhGen ^ b % ecdhPrime) ^ a % ecdhPrime)) base.secretSize
      cases hd : blake3DeriveKey ctx
          (ecdhSharedBytes ((ecdhGen ^ b % ecdhPrime) ^ a % ecdhPrime))
          base.secretSize with
      | nil => rw [hd] at hlen; simp at hlen; omega
      | cons x xs => exact ⟨x, by simp⟩
    unfold totpGenerate at hgA hgB
    rw [if_neg hiss, if_neg hacc] at hgA hgB
    dsimp only at hgA hgB
    rw [hne] at hgA hgB
    simp only [Bool.false_eq_true, if_false] at hgA hgB
    cases hns : NewSecretBase32 (base32Encode (blake3DeriveKey ctx
        (ecdhSharedBytes ((ecdhGen ^ b % ecdhPrime) ^ a % ecdhPrime))
        base.secretSize)) with
    | error e =>
      rw [hns] at hgA
      cases hgA
    | ok secret =>
      rw [hns] at hgA hgB
      dsimp only at hgA hgB
      cases hgA
      cases hgB
      rfl
  · intro o priv pub rand hpriv hpub hcurve
    unfold GenerateKeyCustom
    rw [hpriv, hpub]
    dsimp only
    unfold ecdhExchange
    rw [if_pos hcurve]
    rfl

/-- Base options of the C2 witness (SecretSize 16). -/
def baseC2 : Options :=
  ⟨"alice@example.com", "SHA1", 6, "", none, none, "Example.com", none, 30, 16, 1, false⟩

/-- Alice's side: her private key `⟨1, 3⟩` and Bob's public key. -/
def oAC2 : Options :=
  { baseC2 with
    ecdhPrivateKey := some ⟨1, 3⟩
    ecdhPublicKey := some (ecdhPublicKeyOf ⟨1, 5⟩)
    ecdhCtx := "common ctx" }

/-- Bob's side: his private key `⟨1, 5⟩` and Alice's public key. -/
def oBC2 : Options :=
  { baseC2 with
    ecdhPrivateKey := some ⟨1, 5⟩
    ecdhPublicKey := some (ecdhPublicKeyOf ⟨1, 3⟩)
    ecdhCtx := "common ctx" }

/-- A mismatched pair: a private key on curve 1, a public key on
curve 2. -/
def mismatchC2 : Options :=
  { baseC2 with
    ecdhPrivateKey := some ⟨1, 3⟩
    ecdhPublicKey := some ⟨2, 7⟩
    ecdhCtx := "common ctx" }

set_option maxRecDepth 16384 in
/-- C2 (witness): on the model curve, Alice's `(privA, pubB)` key and
Bob's `(privB, pubA)` key generate and produce the same passcode at
`t = 1700000000`, and the mismatched pair fails with the curve-mismatch
error. -/
theorem ecdh_agreement_witness :
    ∃ kA kB,
      GenerateKeyCustom oAC2 (fun _ => 0) = .ok kA
    ∧ GenerateKeyCustom oBC2 (fun _ => 1) = .ok kB
    ∧ kA.PassCodeCustom 1700000000 = kB.PassCodeCustom 1700000000
    ∧ GenerateKeyCustom mismatchC2 (fun _ => 0)
        = .error "failed to generate ECDH shared secret: private key and public key curves do not match" := by
  have hokA : isOkE (GenerateKeyCustom oAC2 (fun _ => 0)) = true := by decide
  have hokB : isOkE (GenerateKeyCustom oBC2 (fun _ => 1)) = true := by decide
  cases hgA : GenerateKeyCustom oAC2 (fun _ => 0) with
  | error e => rw [hgA] at hokA; exact absurd hokA (by simp [isOkE])
  | ok kA =>
    cases hgB : GenerateKeyCustom oBC2 (fun _ => 1) with
    | error e => rw [hgB] at hokB; exact absurd hokB (by simp [isOkE])
    | ok kB =>
      have h := ecdh_agreement baseC2 1 3 5 "common ctx" (fun _ => 0) (fun _ => 1)
        1700000000 oAC2 oBC2 kA kB (by decide) rfl rfl hgA hgB
      exact ⟨kA, kB, rfl, rfl, h.1,
        h.2 mismatchC2 ⟨1, 3⟩ ⟨2, 7⟩ (fun _ => 0) rfl rfl (by decide)⟩

/-- A small helper: `GenKeyFromPEM` on a single TOTP block. -/
theorem genKeyFromPEM_totp_block (hs : List (String × String)) (bytes : List Nat) :
    GenKeyFromPEM [⟨BlockTypeTOTP, hs, bytes⟩]
      = .ok (keyOfPemBlock ⟨BlockTypeTOTP, hs, bytes⟩) := by
  unfold GenKeyFromPEM
  rw [if_pos rfl]

/-- C5 (amended): for every Key whose `PEM()` succeeds, whose numeric
fields (Period, SecretSize, Skew, Digits) fit in 32 bits, and whose
Algorithm is fixed by uppercasing, `GenKeyFromPEM(k.PEM())` reproduces
the secret bytes and the Issuer, AccountName, Algorithm, Digits,
Period, SecretSize and Skew fields exactly. -/
theorem pem_roundtrip (k : Key) (pemData : List PemBlock)
    (hpem : k.PEM = .ok pemData)
    (hper : k.options.period < 2 ^ 32)
    (hsize : k.options.secretSize < 2 ^ 32)
    (hskew : k.options.skew < 2 ^ 32)
    (hdig : k.options.digits < 2 ^ 32)
    (halg : toUpperAscii k.options.algorithm = k.options.algorithm) :
    ∃ k2, GenKeyFromPEM pemData = .ok k2
      ∧ k2.secret = k.secret
      ∧ k2.options.issuer = k.options.issuer
      ∧ k2.options.accountName = k.options.accountName
      ∧ k2.options.algorithm = k.options.algorithm
      ∧ k2.options.digits = k.options.digits
      ∧ k2.options.period = k.options.period
      ∧ k2.options.secretSize = k.options.secretSize
      ∧ k2.options.skew = k.options.skew := by
  unfold Key.PEM pemEncodeToMemory at hpem
  dsimp only at hpem
  by_cases hv : pemHeadersValid
      [("Account Name", k.options.accountName),
       ("Algorithm", algorithmString k.options.algorithm),
       ("Digits", digitsString k.options.digits),
       ("Issuer", k.options.issuer),
       ("Period", formatUint k.options.period),
       ("Secret Size", formatUint k.options.secretSize),
       ("Skew", formatUint k.options.skew)]
  · rw [if_pos hv] at hpem
    dsimp only at hpem
    cases hpem
    rw [genKeyFromPEM_totp_block]
    refine ⟨_, rfl, rfl, rfl, rfl, ?_, ?_, ?_, ?_, ?_⟩
    · exact halg
    · exact strToUint_formatUint _ hdig
    · exact strToUint_formatUint _ hper
    · exact strToUint_formatUint _ hsize
    · exact strToUint_formatUint _ hskew
  · rw [if_neg hv] at hpem
    cases hpem

/-- The C5 counterexample key: Skew is `2 ^ 32`, every other field is
ordinary. -/
def keyC5bad : Key :=
  ⟨List.replicate 16 1,
    ⟨"alice@example.com", "SHA1", 6, "", none, none, "Example.com", none,
      30, 16, 4294967296, false⟩⟩

/-- C5 (counterexample): `keyC5bad.PEM()` succeeds, but parsing it back
yields Skew 0, not the original `2 ^ 32`: the `Skew` header is written
as `4294967296` and `StrToUint` parses with a 32-bit bound, returning
0. -/
theorem pem_roundtrip_counterexample :
    ∃ pemData k2, keyC5bad.PEM = .ok pemData
      ∧ GenKeyFromPEM pemData = .ok k2
      ∧ k2.options.skew = 0
      ∧ keyC5bad.options.skew = 4294967296 := by
  refine ⟨[⟨BlockTypeTOTP,
      [("Account Name", "alice@example.com"), ("Algorithm", "SHA1"),
       ("Digits", "6"), ("Issuer", "Example.com"), ("Period", "30"),
       ("Secret Size", "16"), ("Skew", "4294967296")],
      List.replicate 16 1⟩], _,
    by rfl, genKeyFromPEM_totp_block _ _, ?_, rfl⟩
  show StrToUint "4294967296" = 0
  rfl

/-- The C5 witness key: all numeric fields within 32 bits, canonical
uppercase algorithm. -/
def keyC5good : Key :=
  ⟨List.replicate 16 2,
    ⟨"alice@example.com", "SHA1", 6, "", none, none, "Example.com", none,
      30, 16, 1, false⟩⟩

/-- C5 (witness): the round-trip theorem applied to `keyC5good`. -/
theorem pem_roundtrip_witness :
    ∃ k2, GenKeyFromPEM
        [⟨BlockTypeTOTP,
          [("Account Name", "alice@example.com"), ("Algorithm", "SHA1"),
           ("Digits", "6"), ("Issuer", "Example.com"), ("Period", "30"),
           ("Secret Size", "16"), ("Skew", "1")],
          List.replicate 16 2⟩] = .ok k2
      ∧ k2.secret = keyC5good.secret
      ∧ k2.options.issuer = keyC5good.options.issuer
      ∧ k2.options.accountName = keyC5good.options.accountName
      ∧ k2.options.algorithm = keyC5good.options.algorithm
      ∧ k2.options.digits = keyC5good.options.digits
      ∧ k2.options.period = keyC5good.options.period
      ∧ k2.options.secretSize = keyC5good.options.secretSize
      ∧ k2.options.skew = keyC5good.options.skew :=
  pem_roundtrip keyC5good
    [⟨BlockTypeTOTP,
      [("Account Name", "alice@example.com"), ("Algorithm", "SHA1"),
       ("Digits", "6"), ("Issuer", "Example.com"), ("Period", "30"),
       ("Secret Size", "16"), ("Skew", "1")],
      List.replicate 16 2⟩]
    rfl (by decide) (by decide) (by decide) (by decide) rfl
